import Mathlib

/-!
Verification development for the crstats view-recording and aggregation
engine.  The Go statistics client (`StatsClient` with `AddView`,
`FetchComicStats`, `Connect`, `errorHandler`, `reconnect`) is embedded
shallowly: the Redis store is an explicit state value, each Redis command
issued by the client is one step of an execution state that also records a
trace of issued commands and whether each command's round trip failed
(driven by a failure oracle), and the two operations are translated line by
line from the source.  The ingestion queue of `httpd.go` (`viewQueue`,
`viewLogger`) is embedded as a bounded FIFO list with a one-step consumer
function.
-/

namespace CRStats

/-- A Redis reply as observed through the radix client: a status reply, a
nil reply, an integer reply, or a reply carrying a communication error. -/
inductive Reply where
  | ok : Reply
  | nil : Reply
  | int (n : Int) : Reply
  | err : Reply
deriving DecidableEq

/-- Reading an integer out of a reply (radix `Reply.Int` / `Reply.Int64`);
fails on non-integer and error replies. -/
def replyInt : Reply → Option Int
  | Reply.int n => some n
  | _ => none

/-- A plain string key's value together with its optional absolute expiry
time (Unix seconds). -/
structure StrVal where
  value : Int
  expireAt : Option Int
deriving DecidableEq

/-- The Redis commands issued by the statistics client.  `zremUpTo k m`
is `ZREMRANGEBYSCORE k -inf m` and `zcountFrom k m` is `ZCOUNT k m +inf`. -/
inductive Cmd where
  | setNxEx (key : String) (ttl : Int)
  | zadd (key : String) (score : Int) (member : String)
  | incr (key : String)
  | expire (key : String) (ttl : Int)
  | zscore (key : String) (member : String)
  | zremUpTo (key : String) (maxScore : Int)
  | zcard (key : String)
  | zcountFrom (key : String) (minScore : Int)
  | ping
deriving DecidableEq

/-- Association-list lookup by string key. -/
def alookup {α : Type} : List (String × α) → String → Option α
  | [], _ => none
  | (k, v) :: rest, key => if k = key then some v else alookup rest key

/-- Association-list update/insert by string key. -/
def aset {α : Type} : List (String × α) → String → α → List (String × α)
  | [], key, v => [(key, v)]
  | (k, w) :: rest, key, v =>
    if k = key then (key, v) :: rest else (k, w) :: aset rest key v

/-- The Redis store state: plain string keys (dedupe markers and
distinct-day counters) and sorted sets (member-to-score maps). -/
structure Store where
  strings : List (String × StrVal)
  zsets : List (String × List (String × Int))
deriving DecidableEq

/-- Whether a string key's entry is still alive at time `now` (Redis
expiry: the key is gone once `now` reaches the expiry time). -/
def strLive (now : Int) (v : StrVal) : Bool :=
  match v.expireAt with
  | none => true
  | some e => now < e

/-- The live value of a plain string key, treating expired keys as
absent. -/
def getStr (s : Store) (now : Int) (key : String) : Option Int :=
  match alookup s.strings key with
  | none => none
  | some v => if strLive now v then some v.value else none

/-- The member-to-score list of a sorted set (empty when the key is
absent). -/
def zsetOf (s : Store) (key : String) : List (String × Int) :=
  (alookup s.zsets key).getD []

/-- Small-step semantics of one successfully transmitted Redis command. -/
def runCmd (s : Store) (now : Int) : Cmd → Store × Reply
  | Cmd.setNxEx key ttl =>
    match getStr s now key with
    | some _ => (s, Reply.nil)
    | none =>
      ({ s with strings := aset s.strings key ⟨1, some (now + ttl)⟩ }, Reply.ok)
  | Cmd.zadd key score member =>
    ({ s with zsets := aset s.zsets key (aset (zsetOf s key) member score) },
      Reply.int 1)
  | Cmd.incr key =>
    match alookup s.strings key with
    | some v =>
      if strLive now v then
        ({ s with strings := aset s.strings key ⟨v.value + 1, v.expireAt⟩ },
          Reply.int (v.value + 1))
      else
        ({ s with strings := aset s.strings key ⟨1, none⟩ }, Reply.int 1)
    | none => ({ s with strings := aset s.strings key ⟨1, none⟩ }, Reply.int 1)
  | Cmd.expire key ttl =>
    match alookup s.strings key with
    | some v =>
      if strLive now v then
        ({ s with strings := aset s.strings key ⟨v.value, some (now + ttl)⟩ },
          Reply.int 1)
      else (s, Reply.int 0)
    | none => (s, Reply.int 0)
  | Cmd.zscore key member =>
    match alookup (zsetOf s key) member with
    | some score => (s, Reply.int score)
    | none => (s, Reply.nil)
  | Cmd.zremUpTo key maxScore =>
    ({ s with zsets := aset s.zsets key ((zsetOf s key).filter (fun p => maxScore < p.2)) },
      Reply.int 0)
  | Cmd.zcard key => (s, Reply.int (zsetOf s key).length)
  | Cmd.zcountFrom key minScore =>
    (s, Reply.int ((zsetOf s key).filter (fun p => minScore ≤ p.2)).length)
  | Cmd.ping => (s, Reply.ok)

/-- The underlying causes the client records in its `LastError` field. -/
inductive Cause where
  | cmdFailed
  | intParseFailed
  | dialFailed
deriving DecidableEq

/-- The error values the statistics client can hand to callers:
`CommunicationError`, `ComicNotFoundError`, and the raw integer-parse
error that `FetchComicStats` would return from `r.Int64()`. -/
inductive GoError where
  | communicationError
  | comicNotFound
  | parseError
deriving DecidableEq

/-- Execution state of one client operation: the store, the (fixed)
current time, a failure oracle telling which issued commands fail their
round trip, the index of the next command, the trace of issued commands,
and the client's `LastError` field. -/
structure Exec where
  store : Store
  now : Int
  failAt : Nat → Bool
  idx : Nat
  trace : List Cmd
  lastError : Option Cause

/-- Issue one command: it is always appended to the trace; if the oracle
says the round trip fails the store is untouched and an error reply comes
back, otherwise the command runs on the store. -/
def exec (es : Exec) (c : Cmd) : Exec × Reply :=
  if es.failAt es.idx then
    ({ es with idx := es.idx + 1, trace := es.trace ++ [c] }, Reply.err)
  else
    let sr := runCmd es.store es.now c
    ({ es with store := sr.1, idx := es.idx + 1, trace := es.trace ++ [c] }, sr.2)

/-- `StatsClient.errorHandler` as it acts on the data layer: record the
underlying cause in `LastError`, issue a test `PING` (the possible
reconnect touches only the connection, never the key/value data, and is
modelled separately below), and hand the generic `CommunicationError`
back to the caller. -/
def errorHandlerE (es : Exec) (e : Option Cause) : Exec × GoError :=
  let es1 := { es with lastError := e }
  ((exec es1 Cmd.ping).1, GoError.communicationError)

/-- Dedupe marker key `guest-{comicId}-{guestId}`. -/
def guestKey (comicId guestId : String) : String :=
  "guest-" ++ comicId ++ "-" ++ guestId

/-- Distinct-day counter key `visitor-{comicId}-{guestId}`. -/
def visitorKey (comicId guestId : String) : String :=
  "visitor-" ++ comicId ++ "-" ++ guestId

/-- Reader sorted-set key `readers-{comicId}`. -/
def readersKey (comicId : String) : String := "readers-" ++ comicId

/-- Daily-visitor sorted-set key `visitors-daily-{comicId}`. -/
def visitorsDailyKey (comicId : String) : String := "visitors-daily-" ++ comicId

/-- `StatsClient.AddView`, translated line by line from the Go source:
conditional set of the dedupe marker with 24h expiry (nil reply means the
marker already existed: return success untouched; error reply goes through
the error handler), record the comic in the `comics` sorted set, increment
the distinct-day counter, unconditionally refresh its 14-day expiry, then
classify on the post-increment value. -/
def addView (es : Exec) (comicId guestId : String) : Exec × Option GoError :=
  let er := exec es (Cmd.setNxEx (guestKey comicId guestId) (60 * 60 * 24))
  if er.2 = Reply.nil then (er.1, none)
  else if er.2 = Reply.err then
    let eh := errorHandlerE er.1 (some Cause.cmdFailed)
    (eh.1, some eh.2)
  else
    let es1 := (exec er.1 (Cmd.zadd "comics" er.1.now comicId)).1
    let ir := exec es1 (Cmd.incr (visitorKey comicId guestId))
    let daysVisited := replyInt ir.2
    let es2 := (exec ir.1 (Cmd.expire (visitorKey comicId guestId) (60 * 60 * 24 * 14))).1
    match daysVisited with
    | none =>
      let eh := errorHandlerE es2 (some Cause.intParseFailed)
      (eh.1, some eh.2)
    | some d =>
      if d ≤ 2 then
        ((exec es2 (Cmd.zadd (visitorsDailyKey comicId) es2.now guestId)).1, none)
      else
        ((exec es2 (Cmd.zadd (readersKey comicId) es2.now guestId)).1, none)

/-- The stats snapshot returned by `FetchComicStats` (`LastSeen` as a Unix
timestamp). -/
structure ComicStats where
  comicId : String
  lastSeen : Int
  readers : Int
  readers24h : Int
  visitors24h : Int
deriving DecidableEq

/-- `StatsClient.FetchComicStats`, translated line by line from the Go
source: look up the comic's last-seen score in `comics` (nil reply means
not found; an error reply goes through the error handler, which the source
calls with the still-nil `err` variable rather than `r.Err`), parse the
score (a parse failure returns the raw error), prune readers older than 14
days and daily visitors older than 24 hours, then read the three counts,
ignoring the errors of the prune and count commands exactly as the source
does. -/
def fetchComicStats (es : Exec) (comicId : String) : Exec × ComicStats × Option GoError :=
  let stats0 : ComicStats := ⟨comicId, 0, 0, 0, 0⟩
  let zr := exec es (Cmd.zscore "comics" comicId)
  if zr.2 = Reply.nil then (zr.1, stats0, some GoError.comicNotFound)
  else if zr.2 = Reply.err then
    let eh := errorHandlerE zr.1 none
    (eh.1, stats0, some eh.2)
  else
    match replyInt zr.2 with
    | none => (zr.1, stats0, some GoError.parseError)
    | some t =>
      let stats1 := { stats0 with lastSeen := t }
      let es1 := (exec zr.1 (Cmd.zremUpTo (readersKey comicId) (zr.1.now - 60 * 60 * 24 * 14))).1
      let es2 := (exec es1 (Cmd.zremUpTo (visitorsDailyKey comicId) (es1.now - 60 * 60 * 24))).1
      let cr := exec es2 (Cmd.zcard (readersKey comicId))
      let stats2 := { stats1 with readers := (replyInt cr.2).getD 0 }
      let nr := exec cr.1 (Cmd.zcountFrom (readersKey comicId) (cr.1.now - 60 * 60 * 24))
      let stats3 := { stats2 with readers24h := (replyInt nr.2).getD 0 }
      let vr := exec nr.1 (Cmd.zcard (visitorsDailyKey comicId))
      let stats4 := { stats3 with visitors24h := (replyInt vr.2).getD 0 }
      (vr.1, stats4, none)

/-- A fresh execution state over store `s` at time `now` in which every
command round trip succeeds (the store is reachable). -/
def mkExec (s : Store) (now : Int) : Exec :=
  { store := s, now := now, failAt := fun _ => false, idx := 0, trace := [],
    lastError := none }

/-- `AddView` on a reachable store: resulting store and returned error. -/
def addViewR (s : Store) (now : Int) (comicId guestId : String) :
    Store × Option GoError :=
  let r := addView (mkExec s now) comicId guestId
  (r.1.store, r.2)

/-- `FetchComicStats` on a reachable store: resulting store, stats
snapshot, and returned error. -/
def fetchComicStatsR (s : Store) (now : Int) (comicId : String) :
    Store × ComicStats × Option GoError :=
  let r := fetchComicStats (mkExec s now) comicId
  (r.1.store, r.2.1, r.2.2)

/-- The live pre-increment value of a counter key (0 when absent or
expired), matching what `INCR` starts from. -/
def liveVal (s : Store) (now : Int) (key : String) : Int :=
  match alookup s.strings key with
  | some v => if strLive now v then v.value else 0
  | none => 0

/-- The store keys a command reads or writes (`PING` touches none). -/
def cmdKeys : Cmd → List String
  | Cmd.setNxEx key _ => [key]
  | Cmd.zadd key _ _ => [key]
  | Cmd.incr key => [key]
  | Cmd.expire key _ => [key]
  | Cmd.zscore key _ => [key]
  | Cmd.zremUpTo key _ => [key]
  | Cmd.zcard key => [key]
  | Cmd.zcountFrom key _ => [key]
  | Cmd.ping => []

/-- One queued view event, as in `httpd.go`. -/
structure View where
  comicId : String
  guestId : String
deriving DecidableEq

/-- The fixed capacity of the `viewQueue` channel. -/
def viewQueueCapacity : Nat := 1024

/-- Sending on the bounded `viewQueue` channel: appends at the tail when
there is room; a full buffer blocks the producer (`none`). -/
def enqueueView (q : List View) (v : View) : Option (List View) :=
  if q.length < viewQueueCapacity then some (q ++ [v]) else none

/-- One iteration of the `viewLogger` consumer loop: receive the head view
(blocking on an empty queue), call the recorder (`record v = true` means
`AddView` returned success), and on failure re-enqueue the same view at
the tail. -/
def viewLoggerStep (record : View → Bool) (q : List View) : Option (List View) :=
  match q with
  | [] => none
  | v :: rest => if record v then some rest else some (rest ++ [v])

/-- Observable connection-manager events: closing the link, a dial attempt
with its outcome, the `CONFIG SET save` issued after a successful dial,
and a `PING` liveness probe with its outcome. -/
inductive ConnEvent where
  | closeConn
  | dialAttempt (ok : Bool)
  | configSave
  | pingProbe (ok : Bool)
deriving DecidableEq

/-- Connection-manager state: whether a connection is held, the host, the
`LastError` field, oracles for the outcomes of successive dials and pings,
counters for both, and the event history. -/
structure ConnState where
  connected : Bool
  host : String
  lastError : Option Cause
  dialOk : Nat → Bool
  pingOk : Nat → Bool
  dials : Nat
  pings : Nat
  events : List ConnEvent

/-- `StatsClient.reconnect`: close any held connection, dial the host, and
on success configure periodic durability flushing; a failed dial leaves
the client disconnected and reports the dial error to its (internal)
caller. -/
def reconnectC (st : ConnState) : ConnState × Option Cause :=
  let st1 :=
    if st.connected then
      { st with connected := false, events := st.events ++ [ConnEvent.closeConn] }
    else st
  let ok := st1.dialOk st1.dials
  let st2 :=
    { st1 with
      dials := st1.dials + 1
      events := st1.events ++ [ConnEvent.dialAttempt ok] }
  if ok then
    ({ st2 with connected := true, events := st2.events ++ [ConnEvent.configSave] },
      none)
  else
    (st2, some Cause.dialFailed)

/-- Outcome of a connection-layer operation: a normal return carrying
the error value handed to the caller, or a runtime panic caused by
dereferencing the nil client. -/
inductive ConnOutcome where
  | ret (e : Option GoError)
  | panicked
deriving DecidableEq

/-- `StatsClient.errorHandler` on the connection layer: record the
underlying cause in `LastError`, then issue the test `PING` through
`client.connection`.  When no connection object is held (`connection` is
nil, as it is after a failed dial, since the radix `DialTimeout` returns
a nil client on error) the `Cmd` call dereferences the nil client and
the program panics before any probe happens; with a held connection, a
failed probe triggers a reconnect, and the generic `CommunicationError`
is returned. -/
def errorHandlerC (st : ConnState) (e : Option Cause) : ConnState × ConnOutcome :=
  let st1 := { st with lastError := e }
  if st1.connected then
    let ok := st1.pingOk st1.pings
    let st2 :=
      { st1 with
        pings := st1.pings + 1
        events := st1.events ++ [ConnEvent.pingProbe ok] }
    let st3 := if ok then st2 else (reconnectC st2).1
    (st3, ConnOutcome.ret (some GoError.communicationError))
  else (st1, ConnOutcome.panicked)

/-- `StatsClient.Connect`: store the host, reconnect, and route a dial
failure through the error handler — which, the connection being nil on
exactly that path, dereferences nil and panics. -/
def connectC (st : ConnState) (host : String) : ConnState × ConnOutcome :=
  let st1 := { st with host := host }
  let r := reconnectC st1
  match r.2 with
  | some e => errorHandlerC r.1 (some e)
  | none => (r.1, ConnOutcome.ret none)

theorem alookup_aset_self {α : Type} (l : List (String × α)) (k : String) (v : α) :
    alookup (aset l k v) k = some v := by
  induction l with
  | nil => simp [aset, alookup]
  | cons hd tl ih =>
    by_cases h : hd.1 = k
    · simp [aset, h, alookup]
    · simp [aset, h, alookup, ih]

theorem alookup_aset_ne {α : Type} (l : List (String × α)) {k k2 : String} (v : α)
    (h : k ≠ k2) : alookup (aset l k v) k2 = alookup l k2 := by
  induction l with
  | nil => simp [aset, alookup, h]
  | cons hd tl ih =>
    by_cases hk : hd.1 = k
    · simp [aset, hk, alookup, h]
    · by_cases hk2 : hd.1 = k2
      · simp [aset, hk, alookup, hk2, Ne.symm h]
      · simp [aset, hk, alookup, hk2, ih]

theorem aset_aset_self {α : Type} (l : List (String × α)) (k : String) (a b : α) :
    aset (aset l k a) k b = aset l k b := by
  induction l with
  | nil => simp [aset]
  | cons hd tl ih =>
    by_cases h : hd.1 = k
    · simp [aset, h]
    · simp [aset, h, ih]

/-- The first character of a string, as a proposition usable to separate
the distinct key families of the layout. -/
def headIs (s : String) (c : Char) : Prop := ∃ l, s.data = c :: l

theorem headIs_append {p : String} {c : Char} (h : headIs p c) (x : String) :
    headIs (p ++ x) c := by
  obtain ⟨l, hl⟩ := h
  exact ⟨l ++ x.data, by rw [String.data_append, hl]; rfl⟩

theorem ne_of_headIs {s t : String} {c d : Char} (hs : headIs s c) (ht : headIs t d)
    (h : c ≠ d) : s ≠ t := by
  obtain ⟨l, hl⟩ := hs
  obtain ⟨m, hm⟩ := ht
  intro he
  rw [he, hm] at hl
  exact h (List.cons.inj hl).1.symm

theorem headIs_guestKey (c g : String) : headIs (guestKey c g) 'g' :=
  headIs_append (headIs_append (headIs_append ⟨"uest-".data, rfl⟩ c) "-") g

theorem headIs_visitorKey (c g : String) : headIs (visitorKey c g) 'v' :=
  headIs_append (headIs_append (headIs_append ⟨"isitor-".data, rfl⟩ c) "-") g

theorem headIs_readersKey (c : String) : headIs (readersKey c) 'r' :=
  headIs_append ⟨"eaders-".data, rfl⟩ c

theorem headIs_visitorsDailyKey (c : String) : headIs (visitorsDailyKey c) 'v' :=
  headIs_append ⟨"isitors-daily-".data, rfl⟩ c

theorem headIs_comics : headIs "comics" 'c' := ⟨"omics".data, rfl⟩

theorem guestKey_ne_visitorKey (c g c2 g2 : String) :
    guestKey c g ≠ visitorKey c2 g2 :=
  ne_of_headIs (headIs_guestKey c g) (headIs_visitorKey c2 g2) (by decide)

theorem comics_ne_readersKey (c : String) : "comics" ≠ readersKey c :=
  ne_of_headIs headIs_comics (headIs_readersKey c) (by decide)

theorem comics_ne_visitorsDailyKey (c : String) : "comics" ≠ visitorsDailyKey c :=
  ne_of_headIs headIs_comics (headIs_visitorsDailyKey c) (by decide)

theorem visitorsDailyKey_ne_readersKey (c c2 : String) :
    visitorsDailyKey c ≠ readersKey c2 :=
  ne_of_headIs (headIs_visitorsDailyKey c) (headIs_readersKey c2) (by decide)

theorem exec_fst_trace (es : Exec) (c : Cmd) :
    (exec es c).1.trace = es.trace ++ [c] := by
  unfold exec
  split <;> rfl

theorem exec_fst_now (es : Exec) (c : Cmd) : (exec es c).1.now = es.now := by
  unfold exec
  split <;> rfl

theorem exec_fst_failAt (es : Exec) (c : Cmd) :
    (exec es c).1.failAt = es.failAt := by
  unfold exec
  split <;> rfl

theorem exec_ok (es : Exec) (c : Cmd) (h : es.failAt es.idx = false) :
    exec es c =
      ({ es with
          store := (runCmd es.store es.now c).1
          idx := es.idx + 1
          trace := es.trace ++ [c] },
        (runCmd es.store es.now c).2) := by
  unfold exec
  rw [h]
  simp

theorem addViewR_marker_live {s : Store} {now : Int} {c g : String} {v : Int}
    (h : getStr s now (guestKey c g) = some v) :
    addViewR s now c g = (s, none) := by
  simp [addViewR, addView, mkExec, exec, runCmd, h]

theorem addViewR_marker_dead {s : Store} {now : Int} {c g : String}
    (h : getStr s now (guestKey c g) = none) :
    addViewR s now c g =
      ({ strings := aset (aset s.strings (guestKey c g) ⟨1, some (now + 60 * 60 * 24)⟩)
            (visitorKey c g)
            ⟨liveVal s now (visitorKey c g) + 1, some (now + 60 * 60 * 24 * 14)⟩
         zsets :=
          if liveVal s now (visitorKey c g) + 1 ≤ 2 then
            aset (aset s.zsets "comics" (aset (zsetOf s "comics") c now))
              (visitorsDailyKey c) (aset (zsetOf s (visitorsDailyKey c)) g now)
          else
            aset (aset s.zsets "comics" (aset (zsetOf s "comics") c now))
              (readersKey c) (aset (zsetOf s (readersKey c)) g now) },
        none) := by
  have hgv : guestKey c g ≠ visitorKey c g := guestKey_ne_visitorKey c g c g
  have hcr : "comics" ≠ readersKey c := comics_ne_readersKey c
  have hcd : "comics" ≠ visitorsDailyKey c := comics_ne_visitorsDailyKey c
  rcases hv : alookup s.strings (visitorKey c g) with _ | v
  · simp [addViewR, addView, mkExec, exec, runCmd, errorHandlerE, replyInt, liveVal,
      zsetOf, strLive, h, hv, alookup_aset_ne _ _ hgv, alookup_aset_ne _ _ hcr,
      alookup_aset_ne _ _ hcd, alookup_aset_self, aset_aset_self]
  · rcases he : v.expireAt with _ | e
    · by_cases hd : v.value + 1 ≤ 2
      · simp [addViewR, addView, mkExec, exec, runCmd, errorHandlerE, replyInt, liveVal,
          zsetOf, strLive, h, hv, he, hd, alookup_aset_ne _ _ hgv, alookup_aset_ne _ _ hcr,
          alookup_aset_ne _ _ hcd, alookup_aset_self, aset_aset_self]
      · simp [addViewR, addView, mkExec, exec, runCmd, errorHandlerE, replyInt, liveVal,
          zsetOf, strLive, h, hv, he, hd, alookup_aset_ne _ _ hgv, alookup_aset_ne _ _ hcr,
          alookup_aset_ne _ _ hcd, alookup_aset_self, aset_aset_self]
    · by_cases hl : now < e
      · by_cases hd : v.value + 1 ≤ 2
        · simp [addViewR, addView, mkExec, exec, runCmd, errorHandlerE, replyInt, liveVal,
            zsetOf, strLive, h, hv, he, hl, hd, alookup_aset_ne _ _ hgv,
            alookup_aset_ne _ _ hcr, alookup_aset_ne _ _ hcd, alookup_aset_self,
            aset_aset_self]
        · simp [addViewR, addView, mkExec, exec, runCmd, errorHandlerE, replyInt, liveVal,
            zsetOf, strLive, h, hv, he, hl, hd, alookup_aset_ne _ _ hgv,
            alookup_aset_ne _ _ hcr, alookup_aset_ne _ _ hcd, alookup_aset_self,
            aset_aset_self]
      · simp [addViewR, addView, mkExec, exec, runCmd, errorHandlerE, replyInt, liveVal,
          zsetOf, strLive, h, hv, he, hl, alookup_aset_ne _ _ hgv, alookup_aset_ne _ _ hcr,
          alookup_aset_ne _ _ hcd, alookup_aset_self, aset_aset_self]

theorem fetchComicStatsR_not_found {s : Store} {now : Int} {c : String}
    (hc : alookup (zsetOf s "comics") c = none) :
    fetchComicStatsR s now c = (s, ⟨c, 0, 0, 0, 0⟩, some GoError.comicNotFound) := by
  simp only [zsetOf] at hc
  simp [fetchComicStatsR, fetchComicStats, mkExec, exec, runCmd, zsetOf, hc]

theorem fetchComicStatsR_found {s : Store} {now : Int} {c : String} {ls : Int}
    (hc : alookup (zsetOf s "comics") c = some ls) :
    fetchComicStatsR s now c =
      ({ strings := s.strings
         zsets := aset
            (aset s.zsets (readersKey c)
              ((zsetOf s (readersKey c)).filter (fun p => now - 60 * 60 * 24 * 14 < p.2)))
            (visitorsDailyKey c)
            ((zsetOf s (visitorsDailyKey c)).filter (fun p => now - 60 * 60 * 24 < p.2)) },
        ⟨c, ls,
          ((zsetOf s (readersKey c)).filter (fun p => now - 60 * 60 * 24 * 14 < p.2)).length,
          (((zsetOf s (readersKey c)).filter (fun p => now - 60 * 60 * 24 * 14 < p.2)).filter
              (fun p => now - 60 * 60 * 24 ≤ p.2)).length,
          ((zsetOf s (visitorsDailyKey c)).filter (fun p => now - 60 * 60 * 24 < p.2)).length⟩,
        none) := by
  have hrd : readersKey c ≠ visitorsDailyKey c :=
    (visitorsDailyKey_ne_readersKey c c).symm
  have hdr : visitorsDailyKey c ≠ readersKey c := visitorsDailyKey_ne_readersKey c c
  simp only [zsetOf] at hc
  simp [fetchComicStatsR, fetchComicStats, mkExec, exec, runCmd, errorHandlerE, replyInt,
    zsetOf, hc, alookup_aset_ne _ _ hrd, alookup_aset_ne _ _ hdr, alookup_aset_self]

/-- Claim C1: AddView is idempotent within the dedupe window: when the
dedupe marker `guest-{comicId}-{guestId}` is live in the store, `AddView`
returns success immediately and leaves the store unchanged; consequently
two `AddView` calls for the same pair within 24 hours (the second inside
the 24-hour window opened by the first) leave the store exactly as one
call does. -/
theorem addView_idempotent_within_window :
    (∀ (s : Store) (now : Int) (c g : String) (v : Int),
      getStr s now (guestKey c g) = some v → addViewR s now c g = (s, none)) ∧
    (∀ (s : Store) (t1 t2 : Int) (c g : String),
      getStr s t1 (guestKey c g) = none → t1 ≤ t2 → t2 < t1 + 60 * 60 * 24 →
      addViewR (addViewR s t1 c g).1 t2 c g = ((addViewR s t1 c g).1, none)) := by
  constructor
  · intro s now c g v h
    exact addViewR_marker_live h
  · intro s t1 t2 c g h h12 h2
    have hd := addViewR_marker_dead h
    have hvg : visitorKey c g ≠ guestKey c g := (guestKey_ne_visitorKey c g c g).symm
    have hlive : getStr (addViewR s t1 c g).1 t2 (guestKey c g) = some 1 := by
      rw [hd]
      simp [getStr, strLive, alookup_aset_ne _ _ hvg, alookup_aset_self]
      omega
    exact addViewR_marker_live hlive

theorem addView_idempotent_within_window_witness :
    getStr ⟨[], []⟩ 0 (guestKey "c1" "g1") = none ∧ (0 : Int) ≤ 100 ∧
      (100 : Int) < 0 + 60 * 60 * 24 ∧
      addViewR (addViewR ⟨[], []⟩ 0 "c1" "g1").1 100 "c1" "g1" =
        ((addViewR ⟨[], []⟩ 0 "c1" "g1").1, none) :=
  ⟨rfl, by decide, by decide,
    addView_idempotent_within_window.2 ⟨[], []⟩ 0 100 "c1" "g1" rfl (by decide) (by decide)⟩

/-- Claim C2: when an AddView call passes the dedupe check (on a
reachable store, so the counter increment succeeds), classification uses
the post-increment distinct-day count: at most 2 puts the guest in the
daily-visitor set scored with the current time, leaving the reader set
untouched; more than 2 puts the guest in the reader set scored with the
current time, leaving all prior daily-visitor memberships untouched. -/
theorem addView_classifies_on_day_count :
    ∀ (s : Store) (now : Int) (c g : String),
      getStr s now (guestKey c g) = none →
      (liveVal s now (visitorKey c g) + 1 ≤ 2 →
        alookup (zsetOf (addViewR s now c g).1 (visitorsDailyKey c)) g = some now ∧
        zsetOf (addViewR s now c g).1 (readersKey c) = zsetOf s (readersKey c)) ∧
      (2 < liveVal s now (visitorKey c g) + 1 →
        alookup (zsetOf (addViewR s now c g).1 (readersKey c)) g = some now ∧
        zsetOf (addViewR s now c g).1 (visitorsDailyKey c) =
          zsetOf s (visitorsDailyKey c)) := by
  intro s now c g h
  have hd := addViewR_marker_dead h
  have hcr : "comics" ≠ readersKey c := comics_ne_readersKey c
  have hcd : "comics" ≠ visitorsDailyKey c := comics_ne_visitorsDailyKey c
  have hdr : visitorsDailyKey c ≠ readersKey c := visitorsDailyKey_ne_readersKey c c
  have hrd : readersKey c ≠ visitorsDailyKey c := hdr.symm
  constructor
  · intro hle
    rw [hd]
    simp [zsetOf, hle, alookup_aset_self, alookup_aset_ne _ _ hcr,
      alookup_aset_ne _ _ hcd, alookup_aset_ne _ _ hdr, alookup_aset_ne _ _ hrd]
  · intro hgt
    have hn : ¬(liveVal s now (visitorKey c g) + 1 ≤ 2) := not_le.mpr hgt
    rw [hd]
    simp [zsetOf, hn, alookup_aset_self, alookup_aset_ne _ _ hcr,
      alookup_aset_ne _ _ hcd, alookup_aset_ne _ _ hdr, alookup_aset_ne _ _ hrd]

theorem addView_classifies_on_day_count_witness :
    getStr ⟨[], []⟩ 5 (guestKey "c1" "g1") = none ∧
      liveVal ⟨[], []⟩ 5 (visitorKey "c1" "g1") + 1 ≤ 2 ∧
      alookup (zsetOf (addViewR ⟨[], []⟩ 5 "c1" "g1").1 (visitorsDailyKey "c1")) "g1" =
        some 5 :=
  ⟨rfl, by decide,
    ((addView_classifies_on_day_count ⟨[], []⟩ 5 "c1" "g1" rfl).1 (by decide)).1⟩

/-- Claim C3: for a comic whose last-seen entry exists, FetchComicStats
first prunes reader-set entries scored more than 14 days back and
daily-visitor entries scored more than 24 hours back, then returns
Readers as the cardinality of the pruned reader set, Readers24h as the
number of pruned reader-set members scored within the last 24 hours, and
Visitors24h as the cardinality of the pruned daily-visitor set. -/
theorem fetch_prunes_then_counts :
    ∀ (s : Store) (now : Int) (c : String) (ls : Int),
      alookup (zsetOf s "comics") c = some ls →
      zsetOf (fetchComicStatsR s now c).1 (readersKey c) =
        (zsetOf s (readersKey c)).filter (fun p => now - 60 * 60 * 24 * 14 < p.2) ∧
      zsetOf (fetchComicStatsR s now c).1 (visitorsDailyKey c) =
        (zsetOf s (visitorsDailyKey c)).filter (fun p => now - 60 * 60 * 24 < p.2) ∧
      (fetchComicStatsR s now c).2.1.readers =
        ((zsetOf s (readersKey c)).filter (fun p => now - 60 * 60 * 24 * 14 < p.2)).length ∧
      (fetchComicStatsR s now c).2.1.readers24h =
        (((zsetOf s (readersKey c)).filter (fun p => now - 60 * 60 * 24 * 14 < p.2)).filter
          (fun p => now - 60 * 60 * 24 ≤ p.2)).length ∧
      (fetchComicStatsR s now c).2.1.visitors24h =
        ((zsetOf s (visitorsDailyKey c)).filter (fun p => now - 60 * 60 * 24 < p.2)).length := by
  intro s now c ls hc
  have hdr : visitorsDailyKey c ≠ readersKey c := visitorsDailyKey_ne_readersKey c c
  have hrd : readersKey c ≠ visitorsDailyKey c := hdr.symm
  rw [fetchComicStatsR_found hc]
  simp [zsetOf, alookup_aset_self, alookup_aset_ne _ _ hdr, alookup_aset_ne _ _ hrd]

theorem fetch_prunes_then_counts_witness :
    alookup
        (zsetOf
          ⟨[], [("comics", [("c1", 100)]),
                ("readers-c1",
                  [("g1", 100), ("g2", 100), ("g3", 100), ("g4", 100), ("g5", 100)])]⟩
          "comics") "c1" = some 100 ∧
      (fetchComicStatsR
          ⟨[], [("comics", [("c1", 100)]),
                ("readers-c1",
                  [("g1", 100), ("g2", 100), ("g3", 100), ("g4", 100), ("g5", 100)])]⟩
          100 "c1").2.1.readers = 5 ∧
      (fetchComicStatsR
          ⟨[], [("comics", [("c1", 100)]),
                ("readers-c1",
                  [("g1", 100), ("g2", 100), ("g3", 100), ("g4", 100), ("g5", 100)])]⟩
          100 "c1").2.1.readers24h = 5 :=
  ⟨by decide,
    ((fetch_prunes_then_counts _ 100 "c1" 100 (by decide)).2.2.1).trans (by decide),
    ((fetch_prunes_then_counts _ 100 "c1" 100 (by decide)).2.2.2.1).trans (by decide)⟩

/-- Claim C4: on a reachable store, FetchComicStats for a comic with no
last-seen entry in the `comics` sorted set fails with the distinct
not-found signal (hence never with the generic communication failure),
and for a comic with a last-seen entry it never returns not-found. -/
theorem fetch_not_found_signal :
    (∀ (s : Store) (now : Int) (c : String),
      alookup (zsetOf s "comics") c = none →
      (fetchComicStatsR s now c).2.2 = some GoError.comicNotFound ∧
      (fetchComicStatsR s now c).2.2 ≠ some GoError.communicationError) ∧
    (∀ (s : Store) (now : Int) (c : String) (ls : Int),
      alookup (zsetOf s "comics") c = some ls →
      (fetchComicStatsR s now c).2.2 ≠ some GoError.comicNotFound) := by
  constructor
  · intro s now c h
    rw [fetchComicStatsR_not_found h]
    exact ⟨rfl, by simp⟩
  · intro s now c ls h
    rw [fetchComicStatsR_found h]
    simp

theorem fetch_not_found_signal_witness :
    alookup (zsetOf ⟨[], []⟩ "comics") "never-seen" = none ∧
      (fetchComicStatsR ⟨[], []⟩ 0 "never-seen").2.2 = some GoError.comicNotFound :=
  ⟨rfl, (fetch_not_found_signal.1 ⟨[], []⟩ 0 "never-seen" rfl).1⟩

/-- Claim C10 counterexample: a FetchComicStats run in which only the
`ZCARD readers` round trip fails returns without error — the code
discards the count error (`stats.Readers, _ = r.Int()`) and records 0 —
while the succeeding ZCOUNT sets Readers24h = 1, violating
Readers24h ≤ Readers on a call that returns without error. -/
theorem fetch_count_bounds_violated :
    (fetchComicStats
        { store := ⟨[], [("comics", [("c1", 100)]), ("readers-c1", [("g1", 100)])]⟩,
          now := 100, failAt := fun n => n == 3, idx := 0, trace := [],
          lastError := none } "c1").2.2 = none ∧
      (fetchComicStats
          { store := ⟨[], [("comics", [("c1", 100)]), ("readers-c1", [("g1", 100)])]⟩,
            now := 100, failAt := fun n => n == 3, idx := 0, trace := [],
            lastError := none } "c1").2.1.readers = 0 ∧
      (fetchComicStats
          { store := ⟨[], [("comics", [("c1", 100)]), ("readers-c1", [("g1", 100)])]⟩,
            now := 100, failAt := fun n => n == 3, idx := 0, trace := [],
            lastError := none } "c1").2.1.readers24h = 1 :=
  ⟨by decide, by decide, by decide⟩

/-- Claim C10 as amended: every FetchComicStats call on a reachable store
(all command round trips succeed) that returns without error satisfies
0 ≤ Readers24h ≤ Readers, and all three returned counts are
non-negative; when a count command's reply is lost, the code coerces that
count to 0 while the returned error stays nil, and the bound can fail. -/
theorem fetch_count_bounds :
    ∀ (s : Store) (now : Int) (c : String),
      (fetchComicStatsR s now c).2.2 = none →
      0 ≤ (fetchComicStatsR s now c).2.1.readers24h ∧
      (fetchComicStatsR s now c).2.1.readers24h ≤ (fetchComicStatsR s now c).2.1.readers ∧
      0 ≤ (fetchComicStatsR s now c).2.1.readers ∧
      0 ≤ (fetchComicStatsR s now c).2.1.visitors24h := by
  intro s now c h
  rcases hc : alookup (zsetOf s "comics") c with _ | ls
  · rw [fetchComicStatsR_not_found hc] at h
    cases h
  · rw [fetchComicStatsR_found hc]
    dsimp only
    refine ⟨Int.natCast_nonneg _, ?_, Int.natCast_nonneg _, Int.natCast_nonneg _⟩
    exact_mod_cast List.length_filter_le _ _

theorem fetch_count_bounds_witness :
    (fetchComicStatsR ⟨[], [("comics", [("c1", 50)])]⟩ 60 "c1").2.2 = none ∧
      (fetchComicStatsR ⟨[], [("comics", [("c1", 50)])]⟩ 60 "c1").2.1.readers24h ≤
        (fetchComicStatsR ⟨[], [("comics", [("c1", 50)])]⟩ 60 "c1").2.1.readers :=
  ⟨by decide, (fetch_count_bounds ⟨[], [("comics", [("c1", 50)])]⟩ 60 "c1" (by decide)).2.1⟩

theorem exec_fst (es : Exec) (c : Cmd) :
    (exec es c).1 =
      { es with
        store := if es.failAt es.idx then es.store else (runCmd es.store es.now c).1
        idx := es.idx + 1
        trace := es.trace ++ [c] } := by
  unfold exec
  split <;> simp_all

theorem exec_snd (es : Exec) (c : Cmd) :
    (exec es c).2 = if es.failAt es.idx then Reply.err else (runCmd es.store es.now c).2 := by
  unfold exec
  split <;> simp_all

/-- Claim C5 counterexample: a run of AddView on an empty reachable store
in which only the second issued command (the `ZADD comics` recording the
comic's last-seen time) fails its round trip still returns success, so a
store command failure is silently swallowed into a success result. -/
theorem addView_swallows_failed_command :
    (fun n => n == 1) 1 = true ∧
    (addView
        { store := ⟨[], []⟩, now := 0, failAt := fun n => n == 1, idx := 0,
          trace := [], lastError := none } "c1" "g1").2 = none ∧
    (addView
        { store := ⟨[], []⟩, now := 0, failAt := fun n => n == 1, idx := 0,
          trace := [], lastError := none } "c1" "g1").1.trace =
      [Cmd.setNxEx (guestKey "c1" "g1") 86400, Cmd.zadd "comics" 0 "c1",
        Cmd.incr (visitorKey "c1" "g1"), Cmd.expire (visitorKey "c1" "g1") 1209600,
        Cmd.zadd (visitorsDailyKey "c1") 0 "g1"] := by
  refine ⟨rfl, by decide, by decide⟩

/-- Claim C5 as amended: AddView surfaces only success or the generic
communication error, and FetchComicStats only success, the communication
error, or the not-found signal; a failed round trip of each command whose
result the code checks — the dedupe SET, the INCR whose result is read,
and the ZSCORE lookup — surfaces as the generic communication error; and
failures of every other command (the last-seen ZADD, the EXPIRE, the
classification ZADD, the prunes, the counts) are swallowed into success
results: whenever the dedupe SET and the INCR round trips succeed AddView
returns success, and whenever the ZSCORE round trip succeeds on a
recorded comic FetchComicStats returns success, no matter which of the
other commands fail. -/
theorem client_error_taxonomy :
    (∀ (es : Exec) (c g : String),
      (addView es c g).2 = none ∨
      (addView es c g).2 = some GoError.communicationError) ∧
    (∀ (es : Exec) (c : String),
      (fetchComicStats es c).2.2 = none ∨
      (fetchComicStats es c).2.2 = some GoError.communicationError ∨
      (fetchComicStats es c).2.2 = some GoError.comicNotFound) ∧
    (∀ (es : Exec) (c g : String), es.failAt es.idx = true →
      (addView es c g).2 = some GoError.communicationError) ∧
    (∀ (es : Exec) (c g : String),
      es.failAt es.idx = false → getStr es.store es.now (guestKey c g) = none →
      es.failAt (es.idx + 1 + 1) = true →
      (addView es c g).2 = some GoError.communicationError) ∧
    (∀ (es : Exec) (c : String), es.failAt es.idx = true →
      (fetchComicStats es c).2.2 = some GoError.communicationError) ∧
    (∀ (es : Exec) (c g : String),
      es.failAt es.idx = false → getStr es.store es.now (guestKey c g) = none →
      es.failAt (es.idx + 1 + 1) = false →
      (addView es c g).2 = none) ∧
    (∀ (es : Exec) (c : String) (ls : Int),
      es.failAt es.idx = false → alookup (zsetOf es.store "comics") c = some ls →
      (fetchComicStats es c).2.2 = none) := by
  refine ⟨?_, ?_, ?_, ?_, ?_, ?_, ?_⟩
  · intro es c g
    have hne : guestKey c g ≠ visitorKey c g := guestKey_ne_visitorKey c g c g
    rcases hf0 : es.failAt es.idx with _ | _
    · rcases hg : getStr es.store es.now (guestKey c g) with _ | v
      · rcases hf2 : es.failAt (es.idx + 1 + 1) with _ | _
        · rcases hv : alookup es.store.strings (visitorKey c g) with _ | v
          · simp [addView, exec_fst, exec_snd, runCmd, errorHandlerE, replyInt,
              apply_ite Store.strings, apply_ite Store.zsets, alookup_aset_ne _ _ hne,
              hf0, hg, hf2, hv]
          · rcases hl : strLive es.now v with _ | _
            · simp [addView, exec_fst, exec_snd, runCmd, errorHandlerE, replyInt,
                apply_ite Store.strings, apply_ite Store.zsets, alookup_aset_ne _ _ hne,
                hf0, hg, hf2, hv, hl]
            · by_cases hd : v.value + 1 ≤ 2 <;>
                simp [addView, exec_fst, exec_snd, runCmd, errorHandlerE, replyInt,
                  apply_ite Store.strings, apply_ite Store.zsets, alookup_aset_ne _ _ hne,
                  hf0, hg, hf2, hv, hl, hd]
        · simp [addView, exec_fst, exec_snd, runCmd, errorHandlerE, replyInt,
            hf0, hg, hf2]
      · simp [addView, exec_fst, exec_snd, runCmd, errorHandlerE, replyInt, hf0, hg]
    · simp [addView, exec_fst, exec_snd, runCmd, errorHandlerE, replyInt, hf0]
  · intro es c
    rcases hf0 : es.failAt es.idx with _ | _
    · rcases hc : alookup (zsetOf es.store "comics") c with _ | ls
      · simp [fetchComicStats, exec_fst, exec_snd, runCmd, errorHandlerE, replyInt,
          hf0, hc]
      · simp [fetchComicStats, exec_fst, exec_snd, runCmd, errorHandlerE, replyInt,
          hf0, hc]
    · simp [fetchComicStats, exec_fst, exec_snd, runCmd, errorHandlerE, replyInt, hf0]
  · intro es c g hf
    simp [addView, exec_fst, exec_snd, runCmd, errorHandlerE, replyInt, hf]
  · intro es c g hf0 hg hf2
    simp [addView, exec_fst, exec_snd, runCmd, errorHandlerE, replyInt, hf0, hg, hf2]
  · intro es c hf
    simp [fetchComicStats, exec_fst, exec_snd, runCmd, errorHandlerE, replyInt, hf]
  · intro es c g hf0 hg hf2
    have hne : guestKey c g ≠ visitorKey c g := guestKey_ne_visitorKey c g c g
    rcases hv : alookup es.store.strings (visitorKey c g) with _ | v
    · simp [addView, exec_fst, exec_snd, runCmd, errorHandlerE, replyInt,
        apply_ite Store.strings, apply_ite Store.zsets, alookup_aset_ne _ _ hne,
        hf0, hg, hf2, hv]
    · rcases hl : strLive es.now v with _ | _
      · simp [addView, exec_fst, exec_snd, runCmd, errorHandlerE, replyInt,
          apply_ite Store.strings, apply_ite Store.zsets, alookup_aset_ne _ _ hne,
          hf0, hg, hf2, hv, hl]
      · by_cases hd : v.value + 1 ≤ 2 <;>
          simp [addView, exec_fst, exec_snd, runCmd, errorHandlerE, replyInt,
            apply_ite Store.strings, apply_ite Store.zsets, alookup_aset_ne _ _ hne,
            hf0, hg, hf2, hv, hl, hd]
  · intro es c ls hf0 hc
    simp [fetchComicStats, exec_fst, exec_snd, runCmd, errorHandlerE, replyInt, hf0, hc]

theorem client_error_taxonomy_witness :
    ({ store := ⟨[], []⟩, now := 0, failAt := fun n => n == 1, idx := 0, trace := [],
        lastError := none } : Exec).failAt 0 = false ∧
      getStr ⟨[], []⟩ 0 (guestKey "c1" "g1") = none ∧
      ({ store := ⟨[], []⟩, now := 0, failAt := fun n => n == 1, idx := 0, trace := [],
          lastError := none } : Exec).failAt (0 + 1 + 1) = false ∧
      (addView
          { store := ⟨[], []⟩, now := 0, failAt := fun n => n == 1, idx := 0, trace := [],
            lastError := none } "c1" "g1").2 = none ∧
      (addView
          { store := ⟨[], []⟩, now := 0, failAt := fun n => n == 2, idx := 0, trace := [],
            lastError := none } "c1" "g1").2 = some GoError.communicationError :=
  ⟨rfl, rfl, rfl,
    client_error_taxonomy.2.2.2.2.2.1 _ "c1" "g1" rfl rfl rfl,
    client_error_taxonomy.2.2.2.1 _ "c1" "g1" rfl rfl rfl⟩

/-- Claim C8: in every AddView run that passes the dedupe check, the
distinct-day counter is incremented by a single atomic `INCR` and the
14-day expiry refresh on it is issued immediately afterwards regardless
of the rest of the run — in particular regardless of whether reading the
increment result succeeds or fails, which only affects the commands after
the `EXPIRE`. -/
theorem addView_unconditional_expire :
    ∀ (es : Exec) (c g : String),
      es.failAt es.idx = false → getStr es.store es.now (guestKey c g) = none →
      ∃ tail, (addView es c g).1.trace =
        es.trace ++
          [Cmd.setNxEx (guestKey c g) (60 * 60 * 24), Cmd.zadd "comics" es.now c,
            Cmd.incr (visitorKey c g), Cmd.expire (visitorKey c g) (60 * 60 * 24 * 14)] ++
          tail := by
  intro es c g hf0 hg
  have hne : guestKey c g ≠ visitorKey c g := guestKey_ne_visitorKey c g c g
  rcases hf2 : es.failAt (es.idx + 1 + 1) with _ | _
  · rcases hv : alookup es.store.strings (visitorKey c g) with _ | v
    · refine ⟨[Cmd.zadd (visitorsDailyKey c) es.now g], ?_⟩
      simp [addView, exec_fst, exec_snd, runCmd, errorHandlerE, replyInt,
        apply_ite Store.strings, apply_ite Store.zsets, alookup_aset_ne _ _ hne,
        hf0, hg, hf2, hv]
    · rcases hl : strLive es.now v with _ | _
      · refine ⟨[Cmd.zadd (visitorsDailyKey c) es.now g], ?_⟩
        simp [addView, exec_fst, exec_snd, runCmd, errorHandlerE, replyInt,
          apply_ite Store.strings, apply_ite Store.zsets, alookup_aset_ne _ _ hne,
          hf0, hg, hf2, hv, hl]
      · by_cases hd : v.value + 1 ≤ 2
        · refine ⟨[Cmd.zadd (visitorsDailyKey c) es.now g], ?_⟩
          simp [addView, exec_fst, exec_snd, runCmd, errorHandlerE, replyInt,
            apply_ite Store.strings, apply_ite Store.zsets, alookup_aset_ne _ _ hne,
            hf0, hg, hf2, hv, hl, hd]
        · refine ⟨[Cmd.zadd (readersKey c) es.now g], ?_⟩
          simp [addView, exec_fst, exec_snd, runCmd, errorHandlerE, replyInt,
            apply_ite Store.strings, apply_ite Store.zsets, alookup_aset_ne _ _ hne,
            hf0, hg, hf2, hv, hl, hd]
  · refine ⟨[Cmd.ping], ?_⟩
    simp [addView, exec_fst, exec_snd, runCmd, errorHandlerE, replyInt,
      apply_ite Store.strings, apply_ite Store.zsets, alookup_aset_ne _ _ hne,
      hf0, hg, hf2]

theorem addView_unconditional_expire_witness :
    ({ store := ⟨[], []⟩, now := 0, failAt := fun n => n == 2, idx := 0, trace := [],
        lastError := none } : Exec).failAt 0 = false ∧
      getStr ⟨[], []⟩ 0 (guestKey "c1" "g1") = none ∧
      ∃ tail,
        (addView
            { store := ⟨[], []⟩, now := 0, failAt := fun n => n == 2, idx := 0,
              trace := [], lastError := none } "c1" "g1").1.trace =
          [] ++
            [Cmd.setNxEx (guestKey "c1" "g1") (60 * 60 * 24), Cmd.zadd "comics" 0 "c1",
              Cmd.incr (visitorKey "c1" "g1"),
              Cmd.expire (visitorKey "c1" "g1") (60 * 60 * 24 * 14)] ++
            tail :=
  ⟨rfl, rfl,
    addView_unconditional_expire
      { store := ⟨[], []⟩, now := 0, failAt := fun n => n == 2, idx := 0, trace := [],
        lastError := none } "c1" "g1" rfl rfl⟩

/-- Claim C9: every store access of AddView stays inside the published
key layout for its pair — dedupe marker `guest-{c}-{g}`, last-seen set
`comics`, counter `visitor-{c}-{g}`, reader set `readers-{c}`,
daily-visitor set `visitors-daily-{c}` — and every store access of
FetchComicStats stays inside `comics`, `readers-{c}`,
`visitors-daily-{c}`; no other key is read or written (the liveness
`PING` of the error path touches no key). -/
theorem client_key_layout :
    (∀ (es : Exec) (c g : String) (cmd : Cmd), es.trace = [] →
      cmd ∈ (addView es c g).1.trace →
      cmdKeys cmd ⊆
        [guestKey c g, "comics", visitorKey c g, readersKey c, visitorsDailyKey c]) ∧
    (∀ (es : Exec) (c : String) (cmd : Cmd), es.trace = [] →
      cmd ∈ (fetchComicStats es c).1.trace →
      cmdKeys cmd ⊆ ["comics", readersKey c, visitorsDailyKey c]) := by
  constructor
  · intro es c g cmd ht hm
    have hne : guestKey c g ≠ visitorKey c g := guestKey_ne_visitorKey c g c g
    rcases hf0 : es.failAt es.idx with _ | _
    · rcases hg : getStr es.store es.now (guestKey c g) with _ | v
      · rcases hf2 : es.failAt (es.idx + 1 + 1) with _ | _
        · rcases hv : alookup es.store.strings (visitorKey c g) with _ | v
          · simp [addView, exec_fst, exec_snd, runCmd, errorHandlerE, replyInt,
              apply_ite Store.strings, apply_ite Store.zsets, alookup_aset_ne _ _ hne,
              hf0, hg, hf2, hv, ht] at hm
            rcases hm with rfl | rfl | rfl | rfl | rfl <;> simp [cmdKeys]
          · rcases hl : strLive es.now v with _ | _
            · simp [addView, exec_fst, exec_snd, runCmd, errorHandlerE, replyInt,
                apply_ite Store.strings, apply_ite Store.zsets, alookup_aset_ne _ _ hne,
                hf0, hg, hf2, hv, hl, ht] at hm
              rcases hm with rfl | rfl | rfl | rfl | rfl <;> simp [cmdKeys]
            · by_cases hd : v.value + 1 ≤ 2
              · simp [addView, exec_fst, exec_snd, runCmd, errorHandlerE, replyInt,
                  apply_ite Store.strings, apply_ite Store.zsets, alookup_aset_ne _ _ hne,
                  hf0, hg, hf2, hv, hl, hd, ht] at hm
                rcases hm with rfl | rfl | rfl | rfl | rfl <;> simp [cmdKeys]
              · simp [addView, exec_fst, exec_snd, runCmd, errorHandlerE, replyInt,
                  apply_ite Store.strings, apply_ite Store.zsets, alookup_aset_ne _ _ hne,
                  hf0, hg, hf2, hv, hl, hd, ht] at hm
                rcases hm with rfl | rfl | rfl | rfl | rfl <;> simp [cmdKeys]
        · simp [addView, exec_fst, exec_snd, runCmd, errorHandlerE, replyInt,
            apply_ite Store.strings, apply_ite Store.zsets, alookup_aset_ne _ _ hne,
            hf0, hg, hf2, ht] at hm
          rcases hm with rfl | rfl | rfl | rfl | rfl <;> simp [cmdKeys]
      · simp [addView, exec_fst, exec_snd, runCmd, errorHandlerE, replyInt,
          hf0, hg, ht] at hm
        subst hm
        simp [cmdKeys]
    · simp [addView, exec_fst, exec_snd, runCmd, errorHandlerE, replyInt, hf0, ht] at hm
      rcases hm with rfl | rfl <;> simp [cmdKeys]
  · intro es c cmd ht hm
    rcases hf0 : es.failAt es.idx with _ | _
    · rcases hc : alookup (zsetOf es.store "comics") c with _ | ls
      · simp [fetchComicStats, exec_fst, exec_snd, runCmd, errorHandlerE, replyInt,
          hf0, hc, ht] at hm
        subst hm
        simp [cmdKeys]
      · simp [fetchComicStats, exec_fst, exec_snd, runCmd, errorHandlerE, replyInt,
          hf0, hc, ht] at hm
        rcases hm with rfl | rfl | rfl | rfl | rfl | rfl <;> simp [cmdKeys]
    · simp [fetchComicStats, exec_fst, exec_snd, runCmd, errorHandlerE, replyInt,
        hf0, ht] at hm
      rcases hm with rfl | rfl <;> simp [cmdKeys]

theorem client_key_layout_witness :
    ([] : List Cmd) = [] ∧
      cmdKeys (Cmd.zadd "comics" 0 "c1") ⊆
        [guestKey "c1" "g1", "comics", visitorKey "c1" "g1", readersKey "c1",
          visitorsDailyKey "c1"] :=
  ⟨rfl,
    client_key_layout.1
      { store := ⟨[], []⟩, now := 0, failAt := fun _ => false, idx := 0, trace := [],
        lastError := none } "c1" "g1" (Cmd.zadd "comics" 0 "c1") rfl (by decide)⟩

/-- Claim C6: the ingestion queue is a bounded FIFO of fixed capacity
1024 drained by the single consumer loop of `viewLogger`: a full buffer
blocks the producer, each consumer iteration dequeues exactly the head
view and calls the recorder on it, a failed recording re-enqueues the
same view value at the tail and the loop continues, and a view whose
recording fails is never dropped. -/
theorem view_queue_bounded_fifo_requeue :
    viewQueueCapacity = 1024 ∧
    (∀ (q : List View) (v : View), viewQueueCapacity ≤ q.length →
      enqueueView q v = none) ∧
    (∀ (q : List View) (v : View), q.length < viewQueueCapacity →
      enqueueView q v = some (q ++ [v])) ∧
    (∀ record : View → Bool, viewLoggerStep record [] = none) ∧
    (∀ (record : View → Bool) (v : View) (rest : List View), record v = true →
      viewLoggerStep record (v :: rest) = some rest) ∧
    (∀ (record : View → Bool) (v : View) (rest : List View), record v = false →
      viewLoggerStep record (v :: rest) = some (rest ++ [v])) ∧
    (∀ (record : View → Bool) (v : View) (rest : List View), record v = false →
      v ∈ (rest ++ [v]) ∧
        (rest ++ [v]).count v = (v :: rest).count v) := by
  refine ⟨rfl, ?_, ?_, ?_, ?_, ?_, ?_⟩
  · intro q v h
    simp [enqueueView, Nat.not_lt.mpr h]
  · intro q v h
    simp [enqueueView, h]
  · intro record
    rfl
  · intro record v rest h
    simp [viewLoggerStep, h]
  · intro record v rest h
    simp [viewLoggerStep, h]
  · intro record v rest h
    constructor
    · simp
    · simp [List.count_append, List.count_cons]

theorem view_queue_bounded_fifo_requeue_witness :
    (⟨"c1", "g1"⟩ : View) ∈ ([] : List View) ++ [⟨"c1", "g1"⟩] :=
  (view_queue_bounded_fifo_requeue.2.2.2.2.2.2 (fun _ => false) ⟨"c1", "g1"⟩ [] rfl).1

/-- Claim C7 (code bug): `Connect` on a failed dial does not return the
generic communication error — the dial failure is routed to the error
handler, whose test `PING` runs on the nil connection left by the failed
dial, dereferences the nil client and panics; the underlying dial cause
is recorded in `LastError` just before the panic, and no probe event is
ever emitted.  With a held connection the handler does return only the
generic error, retain the cause, probe, and tear down and re-dial on a
failed probe — proved here alongside the panic to delimit the bug to the
nil-connection path. -/
theorem connect_failed_dial_panics :
    (connectC
        { connected := false, host := "", lastError := none, dialOk := fun _ => false,
          pingOk := fun _ => false, dials := 0, pings := 0, events := [] }
        "127.0.0.1:6379").2 = ConnOutcome.panicked ∧
      (connectC
          { connected := false, host := "", lastError := none, dialOk := fun _ => false,
            pingOk := fun _ => false, dials := 0, pings := 0, events := [] }
          "127.0.0.1:6379").1.lastError = some Cause.dialFailed ∧
      (∀ (st : ConnState) (e : Option Cause), st.connected = true →
        (errorHandlerC st e).2 = ConnOutcome.ret (some GoError.communicationError) ∧
        (errorHandlerC st e).1.lastError = e ∧
        (errorHandlerC st e).1.events =
          st.events ++
            [ConnEvent.pingProbe (st.pingOk st.pings)] ++
            (if st.pingOk st.pings then []
             else
              [ConnEvent.closeConn, ConnEvent.dialAttempt (st.dialOk (st.dials))] ++
                (if st.dialOk st.dials then [ConnEvent.configSave] else []))) := by
  refine ⟨by decide, by decide, ?_⟩
  intro st e hc
  refine ⟨?_, ?_, ?_⟩ <;>
    by_cases hpg : st.pingOk st.pings = true <;>
    by_cases hdl : st.dialOk st.dials = true <;>
    simp [errorHandlerC, reconnectC, hc, hpg, hdl]

theorem connect_failed_dial_panics_witness :
    ({ connected := true, host := "h", lastError := none, dialOk := fun _ => true,
        pingOk := fun _ => true, dials := 0, pings := 0,
        events := [] } : ConnState).connected = true ∧
      (errorHandlerC
          { connected := true, host := "h", lastError := none, dialOk := fun _ => true,
            pingOk := fun _ => true, dials := 0, pings := 0, events := [] }
          (some Cause.cmdFailed)).2 =
        ConnOutcome.ret (some GoError.communicationError) :=
  ⟨rfl,
    (connect_failed_dial_panics.2.2
      { connected := true, host := "h", lastError := none, dialOk := fun _ => true,
        pingOk := fun _ => true, dials := 0, pings := 0, events := [] }
      (some Cause.cmdFailed) rfl).1⟩

end CRStats
